import Mathlib

/-!
Verification of the dataset-graph encoder
(`mindspore/train/callback/_dataset_graph.py`).

The encoder walks a JSON-like nested dictionary describing a data pipeline
and packages it into a typed tree (a `lineage_pb2.DatasetGraph` protobuf
message).  We embed the JSON-like values as the inductive `Value`, the
target message types as plain structures (modelled from the spec's output
contract, since the generated protobuf classes are outside the packaged
sources), and each Python method of class `DatasetGraph` as a Lean
function.  Python exceptions become the `PackError` type via `Except`;
Python dict mutation (`dict.pop`) becomes explicit state passing: the
functions that mutate their argument also return its post-call state.
-/

namespace DatasetGraphSpec

/-- Value is the JSON-like dynamic value domain the encoder receives after
the `serialize` / `json.dumps` / `json.loads` round trip: strings, booleans,
integers, floats (embedded as rationals; no float arithmetic is performed,
only type dispatch), lists, null, and string-keyed maps. -/
inductive Value where
  | vStr (s : String)
  | vBool (b : Bool)
  | vInt (n : Int)
  | vFloat (q : Rat)
  | vList (l : List Value)
  | vNull
  | vMap (m : List (String × Value))

/-- truthy mirrors Python truth-testing (`if value:`): empty strings, false,
zero, empty lists, None and empty dicts are falsy. -/
def truthy : Value → Bool
  | .vStr s => s != ""
  | .vBool b => b
  | .vInt n => n != 0
  | .vFloat q => q != 0
  | .vList l => !l.isEmpty
  | .vNull => false
  | .vMap m => !m.isEmpty

/-- pyIsStr mirrors Python `isinstance(value, str)`. -/
def pyIsStr : Value → Bool
  | .vStr _ => true
  | _ => false

/-- pyIsBool mirrors Python `isinstance(value, bool)`. -/
def pyIsBool : Value → Bool
  | .vBool _ => true
  | _ => false

/-- pyIsInt mirrors Python `isinstance(value, int)`: in Python, `bool` is a
subclass of `int`, so booleans also satisfy this test. -/
def pyIsInt : Value → Bool
  | .vInt _ => true
  | .vBool _ => true
  | _ => false

/-- pyIsFloat mirrors Python `isinstance(value, float)` (booleans and
integers are not floats). -/
def pyIsFloat : Value → Bool
  | .vFloat _ => true
  | _ => false

/-- pyIsList mirrors Python `isinstance(value, list)`. -/
def pyIsList : Value → Bool
  | .vList _ => true
  | _ => false

/-- pyIsNone mirrors Python `value is None`. -/
def pyIsNone : Value → Bool
  | .vNull => true
  | _ => false

/-- asStr extracts the string payload (only used after `pyIsStr`). -/
def asStr : Value → String
  | .vStr s => s
  | _ => ""

/-- asBool extracts the boolean payload (only used after `pyIsBool`). -/
def asBool : Value → Bool
  | .vBool b => b
  | _ => false

/-- asInt extracts the integer payload; as in Python, `True` converts to 1
and `False` to 0 (only used after `pyIsInt`). -/
def asInt : Value → Int
  | .vInt n => n
  | .vBool b => bif b then 1 else 0
  | _ => 0

/-- asFloat extracts the float payload (only used after `pyIsFloat`). -/
def asFloat : Value → Rat
  | .vFloat q => q
  | _ => 0

/-- hasKey tests whether a string-keyed association list (a Python dict or a
protobuf map, both with unique keys) contains the key. -/
def hasKey {α : Type} (m : List (String × α)) (k : String) : Bool :=
  m.any (fun p => p.1 == k)

/-- getKey mirrors Python `d[k]` / `k in d`: the value at the first entry
with the key, if any. -/
def getKey {α : Type} (m : List (String × α)) (k : String) : Option α :=
  (m.find? (fun p => p.1 == k)).map Prod.snd

/-- setKey mirrors protobuf/dict map assignment `m[k] = v`: overwrite the
existing entry, otherwise append a new one. -/
def setKey {α : Type} (m : List (String × α)) (k : String) (v : α) : List (String × α) :=
  if hasKey m k then m.map (fun p => if p.1 == k then (k, v) else p) else m ++ [(k, v)]

/-- eraseKey mirrors Python `d.pop(k)`'s effect on the dict: the entries
with key `k` removed. -/
def eraseKey {α : Type} (m : List (String × α)) (k : String) : List (String × α) :=
  m.filter (fun p => p.1 != k)

/-- PackError enumerates the exceptions the encoder can raise: `unsupported`
is the `ValueError(f"Parameter ... is not supported in event package.")`
of `_package_parameter` (the spec's UnsupportedValueTypeError), carrying the
offending key; `keyError` is Python's KeyError from `child.pop("children")`
on a dict lacking the key; `attrError` is Python's AttributeError from
calling `.items()` or `.pop` on a value without that attribute;
`typeError` is Python's TypeError from iterating a non-iterable or from
calling `list.pop` with a string argument. -/
inductive PackError where
  | unsupported (key : String)
  | keyError (key : String)
  | attrError
  | typeError
deriving DecidableEq, Repr

/-- OperationParameter models the `OperationParameter` protobuf message,
from the spec's output contract: five independently keyed maps.  The
string-list map stores the raw sequence the code extends `strValue` with
(element typing is enforced by the external protobuf schema, outside this
core). -/
structure OperationParameter where
  mapStr : List (String × String) := []
  mapBool : List (String × Bool) := []
  mapInt : List (String × Int) := []
  mapDouble : List (String × Rat) := []
  mapStrList : List (String × List Value) := []

/-- getStrList mirrors `message.mapStrList[key].strValue`: the repeated
field of the entry at the key, defaulting to empty. -/
def getStrList (m : OperationParameter) (k : String) : List Value :=
  (getKey m.mapStrList k).getD []

/-- Operation models the `Operation` protobuf message, from the spec's
output contract: a parameter block `operationParam` plus the repeated
`size` and `weights` fields (stored as the raw extended sequences). -/
structure Operation where
  operationParam : OperationParameter := {}
  size : List Value := []
  weights : List Value := []

/-- replaceNone mirrors `lambda x: "" if x is None else x`. -/
def replaceNone (x : Value) : Value :=
  match x with
  | .vNull => .vStr ""
  | v => v

/-- package_parameter embeds the static method `_package_parameter(key,
value, message)`: the ordered isinstance dispatch chain writing into one of
the five maps, with Python's bool-before-int precedence kept explicit, the
list rule guarded by `key != "operations"`, the `None`-to-`"None"` string
sentinel, and `ValueError` for everything else. -/
def package_parameter (key : String) (value : Value) (m : OperationParameter) :
    Except PackError OperationParameter :=
  if pyIsStr value then
    .ok { m with mapStr := setKey m.mapStr key (asStr value) }
  else if pyIsBool value then
    .ok { m with mapBool := setKey m.mapBool key (asBool value) }
  else if pyIsInt value then
    .ok { m with mapInt := setKey m.mapInt key (asInt value) }
  else if pyIsFloat value then
    .ok { m with mapDouble := setKey m.mapDouble key (asFloat value) }
  else if pyIsList value && key != "operations" then
    match value with
    | .vList l =>
      if l.isEmpty then .ok m
      else .ok { m with mapStrList := setKey m.mapStrList key (getStrList m key ++ l.map replaceNone) }
    | _ => .ok m
  else if pyIsNone value then
    .ok { m with mapStr := setKey m.mapStr key "None" }
  else
    .error (.unsupported key)

/-- packEnhancementItem embeds one iteration of the loop in
`_package_enhancement_operation`: a list value is classified by
`all(isinstance(ele, int) ...)` into `size` versus `weights` (with Python's
isinstance, so booleans count as integers); any other value goes through
`_package_parameter` into `operationParam`. -/
def packEnhancementItem (msg : Operation) (kv : String × Value) : Except PackError Operation :=
  match kv.2 with
  | .vList l =>
    if l.all pyIsInt then .ok { msg with size := msg.size ++ l }
    else .ok { msg with weights := msg.weights ++ l }
  | v => do
    let p ← package_parameter kv.1 v msg.operationParam
    .ok { msg with operationParam := p }

/-- packEnhancementFold embeds the `for key, value in operation.items():`
loop of `_package_enhancement_operation`, one item at a time. -/
def packEnhancementFold : List (String × Value) → Operation → Except PackError Operation
  | [], msg => .ok msg
  | kv :: rest, msg => do
    let m1 ← packEnhancementItem msg kv
    packEnhancementFold rest m1

/-- package_enhancement_operation embeds `_package_enhancement_operation(
operation, message)`: iterate `operation.items()` over the given message.
Python raises AttributeError when `operation` is not a dict (e.g. `None`
from a null operations-list element). -/
def package_enhancement_operation (operation : Value) (msg : Operation) :
    Except PackError Operation :=
  match operation with
  | .vMap items => packEnhancementFold items msg
  | _ => .error .attrError

/-- NodeData is the non-recursive part of a `DatasetGraph` protobuf node:
the fields written by `_package_current_dataset` (the `children` field is
separate, written by `_package_children`). -/
structure NodeData where
  parameter : OperationParameter := {}
  operations : List Operation := []
  sampler : Operation := {}

/-- pyIterate embeds Python iteration `for x in value`: lists yield their
elements, strings their characters (as one-character strings), dicts their
keys; other values raise TypeError. -/
def pyIterate : Value → Except PackError (List Value)
  | .vList l => .ok l
  | .vStr s => .ok (s.toList.map fun c => .vStr (String.mk [c]))
  | .vMap m => .ok (m.map fun p => .vStr p.1)
  | _ => .error .typeError

/-- packOperationsFold embeds the `for operator in value:` loop of the
`operations` branch of `_package_current_dataset`: each iterated element is
packaged into a freshly added `message.operations.add()` sub-message. -/
def packOperationsFold : List Value → NodeData → Except PackError NodeData
  | [], d => .ok d
  | op :: rest, d => do
    let opMsg ← package_enhancement_operation op {}
    packOperationsFold rest { d with operations := d.operations ++ [opMsg] }

/-- packCurrentItem embeds one iteration of the loop in
`_package_current_dataset`: a truthy value under `"operations"` is iterated
and each element packaged as an operation sub-message; a truthy value under
`"sampler"` is packaged into the `sampler` sub-message; everything else
(including falsy values under those two keys) goes through
`_package_parameter` into the node's parameter block. -/
def packCurrentItem (d : NodeData) (kv : String × Value) : Except PackError NodeData :=
  if truthy kv.2 && kv.1 == "operations" then do
    let elems ← pyIterate kv.2
    packOperationsFold elems d
  else if truthy kv.2 && kv.1 == "sampler" then do
    let s ← package_enhancement_operation kv.2 d.sampler
    .ok { d with sampler := s }
  else do
    let p ← package_parameter kv.1 kv.2 d.parameter
    .ok { d with parameter := p }

/-- package_current_dataset embeds `_package_current_dataset(operation,
message)`: iterate the dict items into the node's data fields. -/
def package_current_dataset : List (String × Value) → NodeData → Except PackError NodeData
  | [], d => .ok d
  | kv :: rest, d => do
    let d1 ← packCurrentItem d kv
    package_current_dataset rest d1

/-- DGraph models a `DatasetGraph` protobuf node: the repeated `children`
field plus the data fields of `NodeData`. -/
inductive DGraph where
  | mk (data : NodeData) (children : List DGraph)

/-- data projects the non-recursive fields of a node. -/
def DGraph.data : DGraph → NodeData
  | .mk d _ => d

/-- childNodes projects the repeated `children` field of a node. -/
def DGraph.childNodes : DGraph → List DGraph
  | .mk _ k => k

/-- sizeOf_getKey bounds the size of a value found in an association list,
for the termination of the recursive children walk. -/
theorem sizeOf_getKey {m : List (String × Value)} {k : String} {v : Value}
    (h : getKey m k = some v) : sizeOf v < sizeOf m := by
  unfold getKey at h
  rcases Option.map_eq_some'.mp h with ⟨p, hp, hv⟩
  have hmem : p ∈ m := List.mem_of_find?_eq_some hp
  have h1 : sizeOf p < sizeOf m := List.sizeOf_lt_of_mem hmem
  rcases p with ⟨a, b⟩
  simp only at hv
  subst hv
  simp only [Prod.mk.sizeOf_spec] at h1
  omega

mutual

/-- packChild embeds the body of the `for child in children:` loop of
`_package_children` for one truthy child: a fresh child message is added,
`child.pop("children")` removes and returns the grandson value (KeyError
when the key is absent; a truthy non-dict child fails — TypeError for a
list, whose `pop` rejects a string argument, AttributeError otherwise), a
truthy grandson is walked recursively, and the remaining items are
packaged via `_package_current_dataset`.  Returns the built node together
with the post-call state of the (mutated) child value. -/
def packChild (child : Value) : Except PackError (DGraph × Value) :=
  match child with
  | .vMap items =>
    match h : getKey items "children" with
    | none => .error (.keyError "children")
    | some g =>
      let rest := eraseKey items "children"
      do
        let kids ←
          if truthy g then
            match g with
            | .vList gl => do
              let r ← packChildren gl
              .ok r.1
            | .vStr _ => .error .attrError
            | .vMap gm =>
              if gm.all (fun p => p.1 == "") then .ok ([] : List DGraph)
              else .error .attrError
            | _ => .error .typeError
          else .ok ([] : List DGraph)
        let d ← package_current_dataset rest {}
        .ok (.mk d kids, .vMap rest)
  | .vList _ => .error .typeError
  | _ => .error .attrError
termination_by sizeOf child
decreasing_by
  have h1 : sizeOf (Value.vList gl) < sizeOf items := sizeOf_getKey h
  simp only [Value.vList.sizeOf_spec, Value.vMap.sizeOf_spec] at h1 ⊢
  omega

/-- packChildren embeds `_package_children(children, message)`: skip falsy
elements, build one child node per truthy element.  Returns the built child
nodes together with the post-call states of the list elements. -/
def packChildren (l : List Value) : Except PackError (List DGraph × List Value) :=
  match l with
  | [] => .ok ([], [])
  | c :: cs =>
    if truthy c then do
      let rc ← packChild c
      let rcs ← packChildren cs
      .ok (rc.1 :: rcs.1, rc.2 :: rcs.2)
    else do
      let rcs ← packChildren cs
      .ok (rcs.1, c :: rcs.2)
termination_by sizeOf l
decreasing_by
  all_goals simp only [List.cons.sizeOf_spec]
  all_goals omega

end

/-- packChildrenValue embeds a call `_package_children(children=v, ...)` on
an arbitrary (truthy) value: Python iterates the value (TypeError when not
iterable) and runs the per-child loop body on each element. -/
def packChildrenValue (children : Value) : Except PackError (List DGraph) := do
  let elems ← pyIterate children
  let r ← packChildren elems
  .ok r.1

/-- package_dataset_graph embeds `package_dataset_graph(dataset)` after the
external `serialize` / json round trip produced `dataset_dict` (taken here
as the input): a fresh `DatasetGraph` message is returned as is when the
dict has no `"children"` key; otherwise `"children"` is popped, a truthy
children value is walked, and only then are the remaining items packaged
into the root node. -/
def package_dataset_graph (dataset_dict : List (String × Value)) :
    Except PackError DGraph :=
  match getKey dataset_dict "children" with
  | none => .ok (.mk {} [])
  | some children => do
    let rest := eraseKey dataset_dict "children"
    let kids ← if truthy children then packChildrenValue children else .ok []
    let d ← package_current_dataset rest {}
    .ok (.mk d kids)

/-- keyInParams tells whether a key appears as an entry in any of the five
generic parameter maps of a parameter block. -/
def keyInParams (k : String) (p : OperationParameter) : Bool :=
  hasKey p.mapStr k || hasKey p.mapBool k || hasKey p.mapInt k ||
    hasKey p.mapDouble k || hasKey p.mapStrList k

/-- packAllOps packages each element of an operations list into its own
fresh sub-message, in list order — the per-element view of the
`operations` loop, used to state what a successful loop produces. -/
def packAllOps : List Value → Except PackError (List Operation)
  | [] => .ok []
  | op :: rest => do
    let m ← package_enhancement_operation op {}
    let ms ← packAllOps rest
    .ok (m :: ms)

/-- ok_bind reduces a bind on a successful `Except` computation. -/
@[simp] theorem ok_bind {α β : Type} (a : α) (f : α → Except PackError β) :
    (Except.ok a >>= f) = f a := rfl

/-- error_bind propagates an exception through a bind. -/
@[simp] theorem error_bind {α β : Type} (e : PackError) (f : α → Except PackError β) :
    ((Except.error e : Except PackError α) >>= f) = Except.error e := rfl

/-!
Unfolding lemmas for the well-founded recursive walk: they restate each
branch of `packChild` and `packChildren` as a propositional equation, so
later proofs can rewrite with them.
-/

/-- packChildren_nil: the per-child loop over an empty list builds nothing
and leaves nothing to mutate. -/
theorem packChildren_nil : packChildren [] = .ok ([], []) := by
  unfold packChildren
  rfl

/-- packChildren_cons: the per-child loop skips a falsy head and builds one
node for a truthy head before recursing on the tail. -/
theorem packChildren_cons (c : Value) (cs : List Value) :
    packChildren (c :: cs) =
      (if truthy c then do
        let rc ← packChild c
        let rcs ← packChildren cs
        .ok (rc.1 :: rcs.1, rc.2 :: rcs.2)
      else do
        let rcs ← packChildren cs
        .ok (rcs.1, c :: rcs.2)) := by
  rw [packChildren]

/-- packChild_vMap_none: a dict child without a `"children"` key raises
KeyError from `child.pop("children")`. -/
theorem packChild_vMap_none (items : List (String × Value))
    (h : getKey items "children" = none) :
    packChild (.vMap items) = .error (.keyError "children") := by
  rw [packChild]
  split
  · rfl
  · simp_all

/-- packChild_vMap_falsy: a dict child whose `"children"` value is falsy
pops it and packages only the remaining items. -/
theorem packChild_vMap_falsy (items : List (String × Value)) (g : Value)
    (h : getKey items "children" = some g) (hg : truthy g = false) :
    packChild (.vMap items) = (do
      let d ← package_current_dataset (eraseKey items "children") {}
      .ok (DGraph.mk d [], .vMap (eraseKey items "children"))) := by
  rw [packChild]
  split
  · simp_all
  · rename_i g2 heq
    rw [h] at heq
    cases heq
    rw [hg]
    rfl

/-- packChild_vMap_list: a dict child whose `"children"` value is a
non-empty list recursively walks the grandchildren and then packages the
remaining items. -/
theorem packChild_vMap_list (items : List (String × Value)) (gl : List Value)
    (h : getKey items "children" = some (.vList gl)) (hg : gl ≠ []) :
    packChild (.vMap items) = (do
      let r ← packChildren gl
      let d ← package_current_dataset (eraseKey items "children") {}
      .ok (DGraph.mk d r.1, .vMap (eraseKey items "children"))) := by
  rw [packChild]
  split
  · simp_all
  · rename_i g2 heq
    rw [h] at heq
    cases heq
    have hg2 : truthy (Value.vList gl) = true := by
      simp [truthy, hg]
    rw [hg2]
    rfl

/-- package_dataset_graph_none: without a `"children"` key the root message
is returned untouched, so it has no children and no parameters. -/
theorem package_dataset_graph_none (dict : List (String × Value))
    (h : getKey dict "children" = none) :
    package_dataset_graph dict = .ok (.mk {} []) := by
  unfold package_dataset_graph
  rw [h]

/-- package_dataset_graph_falsy: a falsy `"children"` value is popped and
skipped, and the remaining items are packaged into the root. -/
theorem package_dataset_graph_falsy (dict : List (String × Value)) (c : Value)
    (h : getKey dict "children" = some c) (hc : truthy c = false) :
    package_dataset_graph dict = (do
      let d ← package_current_dataset (eraseKey dict "children") {}
      .ok (DGraph.mk d [])) := by
  unfold package_dataset_graph
  rw [h]
  dsimp only
  rw [hc]
  rfl

/-- package_dataset_graph_list: a non-empty `"children"` list is popped and
walked, and then the remaining items are packaged into the root. -/
theorem package_dataset_graph_list (dict : List (String × Value)) (l : List Value)
    (h : getKey dict "children" = some (.vList l)) (hl : l ≠ []) :
    package_dataset_graph dict = (do
      let kids ← packChildrenValue (.vList l)
      let d ← package_current_dataset (eraseKey dict "children") {}
      .ok (DGraph.mk d kids)) := by
  unfold package_dataset_graph
  rw [h]
  dsimp only
  have hc : truthy (Value.vList l) = true := by simp [truthy, hl]
  rw [hc]
  rfl

/-- packChildrenValue_list: walking a list value walks its elements. -/
theorem packChildrenValue_list (l : List Value) :
    packChildrenValue (.vList l) = (do
      let r ← packChildren l
      Except.ok r.1) := rfl

/-- packChild_vStr: a truthy string child raises AttributeError from
`child.pop`, since strings are not dicts. -/
theorem packChild_vStr (s : String) : packChild (.vStr s) = .error .attrError := by
  rw [packChild]
  all_goals exact fun _ h => Value.noConfusion h

/-- packChild_vNull: a null child is never packaged by the loop guard, but
calling the loop body on it would raise AttributeError; the embedding keeps
the case total. -/
theorem packChild_vNull : packChild .vNull = .error .attrError := by
  rw [packChild]
  all_goals exact fun _ h => Value.noConfusion h

/-!
Helper lemmas about the keyed maps and about which fields each packaging
function can touch.
-/

/-- hasKey_setKey_self: map assignment makes the key present. -/
theorem hasKey_setKey_self {α : Type} (m : List (String × α)) (k : String) (v : α) :
    hasKey (setKey m k v) k = true := by
  unfold setKey
  split
  · rename_i hm
    unfold hasKey at hm ⊢
    simp only [List.any_map, List.any_eq_true] at hm ⊢
    rcases hm with ⟨p, hp, hpk⟩
    refine ⟨p, hp, ?_⟩
    simp only [Function.comp]
    rw [if_pos hpk]
    simp
  · unfold hasKey
    simp

/-- hasKey_setKey_ne: map assignment leaves the presence of every other key
unchanged. -/
theorem hasKey_setKey_ne {α : Type} (m : List (String × α)) (k k2 : String) (v : α)
    (h : k2 ≠ k) : hasKey (setKey m k v) k2 = hasKey m k2 := by
  unfold setKey
  split
  · unfold hasKey
    rw [Bool.eq_iff_iff]
    simp only [List.any_map, List.any_eq_true]
    constructor
    · rintro ⟨p, hp, hpk⟩
      refine ⟨p, hp, ?_⟩
      simp only [Function.comp] at hpk
      by_cases hc : p.1 == k
      · rw [if_pos hc] at hpk
        simp only [beq_iff_eq] at hpk
        exact absurd hpk.symm h
      · rwa [if_neg hc] at hpk
    · rintro ⟨p, hp, hpk⟩
      refine ⟨p, hp, ?_⟩
      simp only [Function.comp]
      by_cases hc : p.1 == k
      · simp only [beq_iff_eq] at hc hpk
        rw [hc] at hpk
        exact absurd hpk (fun hk => h hk.symm)
      · rwa [if_neg hc]
  · unfold hasKey
    simp only [List.any_append, List.any_cons, List.any_nil, Bool.or_false]
    have : (k == k2) = false := by
      simpa using fun hk => h hk.symm
    simp [this]

/-- hasKey_eraseKey: popping a key removes it from the dict. -/
theorem hasKey_eraseKey {α : Type} (m : List (String × α)) (k : String) :
    hasKey (eraseKey m k) k = false := by
  unfold hasKey eraseKey
  rw [List.any_eq_false]
  intro p hp
  rw [List.mem_filter] at hp
  simpa using hp.2

/-- package_parameter_keyInParams_ne: generic dispatch on one key never
creates or removes entries under a different key. -/
theorem package_parameter_keyInParams_ne (key : String) (v : Value)
    (m m2 : OperationParameter) (h : package_parameter key v m = .ok m2)
    (k : String) (hk : k ≠ key) : keyInParams k m2 = keyInParams k m := by
  unfold package_parameter at h
  split at h
  · simp only [Except.ok.injEq] at h
    subst h
    simp [keyInParams, hasKey_setKey_ne _ _ _ _ hk]
  · split at h
    · simp only [Except.ok.injEq] at h
      subst h
      simp [keyInParams, hasKey_setKey_ne _ _ _ _ hk]
    · split at h
      · simp only [Except.ok.injEq] at h
        subst h
        simp [keyInParams, hasKey_setKey_ne _ _ _ _ hk]
      · split at h
        · simp only [Except.ok.injEq] at h
          subst h
          simp [keyInParams, hasKey_setKey_ne _ _ _ _ hk]
        · split at h
          · split at h
            · split at h
              · simp only [Except.ok.injEq] at h
                subst h
                rfl
              · simp only [Except.ok.injEq] at h
                subst h
                simp [keyInParams, hasKey_setKey_ne _ _ _ _ hk]
            · simp only [Except.ok.injEq] at h
              subst h
              rfl
          · split at h
            · simp only [Except.ok.injEq] at h
              subst h
              simp [keyInParams, hasKey_setKey_ne _ _ _ _ hk]
            · exact absurd h (by simp)

/-- packOperationsFold_parameter: packaging operation sub-messages never
touches the node's parameter block. -/
theorem packOperationsFold_parameter (elems : List Value) (d d2 : NodeData)
    (h : packOperationsFold elems d = .ok d2) : d2.parameter = d.parameter := by
  induction elems generalizing d with
  | nil =>
    cases h
    rfl
  | cons op rest ih =>
    unfold packOperationsFold at h
    cases hpe : package_enhancement_operation op {} with
    | error e =>
      rw [hpe] at h
      simp only [error_bind] at h
      exact absurd h (by simp)
    | ok opMsg =>
      rw [hpe] at h
      simp only [ok_bind] at h
      exact (ih { d with operations := d.operations ++ [opMsg] } h).trans rfl

/-- packCurrentItem_structural: processing one key/value pair keeps a
structural key (`"operations"` or `"sampler"`) out of the parameter block,
provided that pair's value is truthy whenever its key is the structural
key. -/
theorem packCurrentItem_structural (k : String)
    (hk : k = "operations" ∨ k = "sampler") (kv : String × Value)
    (hkv : kv.1 = k → truthy kv.2 = true) (d d2 : NodeData)
    (h : packCurrentItem d kv = .ok d2)
    (hd : keyInParams k d.parameter = false) :
    keyInParams k d2.parameter = false := by
  unfold packCurrentItem at h
  split at h
  · cases hit : pyIterate kv.2 with
    | error e =>
      rw [hit] at h
      simp only [error_bind] at h
      exact absurd h (by simp)
    | ok elems =>
      rw [hit] at h
      simp only [ok_bind] at h
      rw [packOperationsFold_parameter elems d d2 h]
      exact hd
  · rename_i hc1
    split at h
    · cases hpe : package_enhancement_operation kv.2 d.sampler with
      | error e =>
        rw [hpe] at h
        simp only [error_bind] at h
        exact absurd h (by simp)
      | ok s =>
        rw [hpe] at h
        simp only [ok_bind, Except.ok.injEq] at h
        subst h
        exact hd
    · rename_i hc2
      cases hpp : package_parameter kv.1 kv.2 d.parameter with
      | error e =>
        rw [hpp] at h
        simp only [error_bind] at h
        exact absurd h (by simp)
      | ok p =>
        rw [hpp] at h
        simp only [ok_bind, Except.ok.injEq] at h
        subst h
        have hne : k ≠ kv.1 := by
          intro he
          have ht : truthy kv.2 = true := hkv he.symm
          rcases hk with rfl | rfl
          · exact hc1 (by simp [ht, he.symm])
          · exact hc2 (by simp [ht, he.symm])
        rw [package_parameter_keyInParams_ne kv.1 kv.2 d.parameter p hpp k hne]
        exact hd

/-- package_current_dataset_structural: packaging a whole item list keeps a
structural key out of the parameter block, provided every pair carrying
that key has a truthy value. -/
theorem package_current_dataset_structural (k : String)
    (hk : k = "operations" ∨ k = "sampler") (items : List (String × Value))
    (hitems : ∀ kv ∈ items, kv.1 = k → truthy kv.2 = true) (d d2 : NodeData)
    (h : package_current_dataset items d = .ok d2)
    (hd : keyInParams k d.parameter = false) :
    keyInParams k d2.parameter = false := by
  induction items generalizing d with
  | nil =>
    cases h
    exact hd
  | cons kv rest ih =>
    unfold package_current_dataset at h
    cases hstep : packCurrentItem d kv with
    | error e =>
      rw [hstep] at h
      simp only [error_bind] at h
      exact absurd h (by simp)
    | ok d1 =>
      rw [hstep] at h
      simp only [ok_bind] at h
      have hd1 : keyInParams k d1.parameter = false :=
        packCurrentItem_structural k hk kv (hitems kv (List.mem_cons_self kv rest)) d d1 hstep hd
      exact ih (fun kv2 hm => hitems kv2 (List.mem_cons_of_mem kv hm)) d1 h hd1

/-- packOperationsFold_ok: when every element of an operations list
packages successfully, the loop appends exactly those sub-messages, in
order, after the node's existing operations. -/
theorem packOperationsFold_ok (l : List Value) (ops : List Operation) (d : NodeData)
    (h : packAllOps l = .ok ops) :
    packOperationsFold l d = .ok { d with operations := d.operations ++ ops } := by
  induction l generalizing d ops with
  | nil =>
    cases h
    simp [packOperationsFold]
  | cons op rest ih =>
    unfold packAllOps at h
    cases hpe : package_enhancement_operation op {} with
    | error e =>
      rw [hpe] at h
      simp only [error_bind] at h
      exact Except.noConfusion h
    | ok m =>
      rw [hpe] at h
      simp only [ok_bind] at h
      cases hrest : packAllOps rest with
      | error e =>
        rw [hrest] at h
        simp only [error_bind] at h
        exact Except.noConfusion h
      | ok ms =>
        rw [hrest] at h
        simp only [ok_bind, Except.ok.injEq] at h
        subst h
        unfold packOperationsFold
        rw [hpe]
        simp only [ok_bind]
        rw [ih ms _ hrest]
        simp

/-!
Claim theorems.
-/

/-- C1 (amended): whenever every entry of a node's item list that carries
the key `"operations"` or `"sampler"` has a truthy value, those two keys
never appear as entries in any of the node's five generic parameter maps.
(As literally stated — "regardless of the value those keys carry,
including falsy values" — the claim is false: a falsy value under those
keys falls through to generic dispatch, see the counterexample.) -/
theorem claim_C1_structural_keys_excluded (items : List (String × Value)) (d2 : NodeData)
    (hops : ∀ kv ∈ items, kv.1 = "operations" → truthy kv.2 = true)
    (hsam : ∀ kv ∈ items, kv.1 = "sampler" → truthy kv.2 = true)
    (h : package_current_dataset items {} = .ok d2) :
    keyInParams "operations" d2.parameter = false ∧
    keyInParams "sampler" d2.parameter = false :=
  ⟨package_current_dataset_structural "operations" (Or.inl rfl) items hops {} d2 h rfl,
   package_current_dataset_structural "sampler" (Or.inr rfl) items hsam {} d2 h rfl⟩

/-- C1 witness: a node with a truthy operations list, a truthy sampler and
one null generic key keeps both structural keys out of its parameter
maps. -/
theorem claim_C1_structural_keys_excluded_witness :
    keyInParams "operations" ({ mapStr := [("k", "None")] } : OperationParameter) = false ∧
    keyInParams "sampler" ({ mapStr := [("k", "None")] } : OperationParameter) = false :=
  claim_C1_structural_keys_excluded
    [("operations", Value.vList [Value.vMap []]),
     ("sampler", Value.vMap [("x", Value.vInt 1)]), ("k", Value.vNull)]
    { parameter := { mapStr := [("k", "None")] }, operations := [{}],
      sampler := { operationParam := { mapInt := [("x", 1)] } } }
    (by intro kv hkv hk
        simp only [List.mem_cons, List.not_mem_nil, or_false] at hkv
        rcases hkv with rfl | rfl | rfl <;> simp_all [truthy])
    (by intro kv hkv hk
        simp only [List.mem_cons, List.not_mem_nil, or_false] at hkv
        rcases hkv with rfl | rfl | rfl <;> simp_all [truthy])
    rfl

/-- C1 counterexample: the key `"operations"` carrying a null (falsy) value
lands in the node's generic String map as the sentinel `"None"`, so the
structural keys are not excluded regardless of their value. -/
theorem claim_C1_counterexample :
    package_current_dataset [("operations", Value.vNull)] {} =
      .ok { parameter := { mapStr := [("operations", "None")] } } ∧
    keyInParams "operations" ({ mapStr := [("operations", "None")] } : OperationParameter) = true :=
  ⟨rfl, rfl⟩

/-- C2 (amended): when the `"children"` key is absent from the root input,
the returned root node is completely empty — zero children and zero
parameter entries; the current node's parameters are built only when the
`"children"` key is present (the falsy-children case shown in the second
conjunct). -/
theorem claim_C2_children_gate (dict : List (String × Value)) :
    (getKey dict "children" = none → package_dataset_graph dict = .ok (DGraph.mk {} [])) ∧
    (∀ c, getKey dict "children" = some c → truthy c = false →
      package_dataset_graph dict = (do
        let d ← package_current_dataset (eraseKey dict "children") {}
        Except.ok (DGraph.mk d []))) :=
  ⟨package_dataset_graph_none dict, fun c h hc => package_dataset_graph_falsy dict c h hc⟩

/-- C2 witness: a root without `"children"` encodes to the empty node; a
root with empty `"children"` still gets its other keys packaged. -/
theorem claim_C2_children_gate_witness :
    package_dataset_graph [("op", Value.vStr "Map")] = .ok (DGraph.mk {} []) ∧
    package_dataset_graph [("children", Value.vList []), ("op", Value.vStr "M")] =
      .ok (DGraph.mk { parameter := { mapStr := [("op", "M")] } } []) :=
  ⟨(claim_C2_children_gate [("op", Value.vStr "Map")]).1 rfl,
   ((claim_C2_children_gate [("children", Value.vList []), ("op", Value.vStr "M")]).2
     (Value.vList []) rfl rfl).trans rfl⟩

/-- C2 counterexample: on the root input with `"op"` but no `"children"`,
the encoder returns the empty node, carrying no parameter entry for the
remaining key `"op"` — contradicting the claim that the root still
carries the parameter entries for all remaining keys. -/
theorem claim_C2_counterexample :
    package_dataset_graph [("op", Value.vStr "Map")] = .ok (DGraph.mk {} []) ∧
    keyInParams "op" (DGraph.mk {} []).data.parameter = false :=
  ⟨package_dataset_graph_none [("op", Value.vStr "Map")] rfl, rfl⟩

/-- C4: a boolean value is stored in the Boolean map and creates no entry
in the Integer map, even though in the source type system booleans satisfy
the integer test (`pyIsInt (.vBool b) = true`, as `bool` subclasses `int`
in Python); the boolean rule fires first. -/
theorem claim_C4_bool_before_int (key : String) (b : Bool) (m : OperationParameter) :
    package_parameter key (.vBool b) m =
      .ok { m with mapBool := setKey m.mapBool key b } ∧
    ({ m with mapBool := setKey m.mapBool key b } : OperationParameter).mapInt = m.mapInt ∧
    pyIsInt (.vBool b) = true :=
  ⟨rfl, rfl, rfl⟩

/-- C5: within an operation or sampler, a list value goes wholly into
`size` when every element passes the integer test and wholly into
`weights` otherwise, with the respective other field and the whole
generic parameter block (including its string-list map) left unchanged. -/
theorem claim_C5_size_weights (key : String) (l : List Value) (msg : Operation) :
    packEnhancementItem msg (key, .vList l) =
      .ok (if l.all pyIsInt then { msg with size := msg.size ++ l }
           else { msg with weights := msg.weights ++ l }) := by
  unfold packEnhancementItem
  by_cases hall : l.all pyIsInt = true
  · simp [hall]
  · simp only [Bool.not_eq_true] at hall
    simp [hall]

/-- C6: under any key other than `"operations"`, a non-empty list value has
every null element replaced by the empty string and the resulting sequence
stored in the StringList map under that key, whatever the element types;
an empty list produces no entry in any map. -/
theorem claim_C6_generic_list (key : String) (l : List Value) (m : OperationParameter)
    (hk : key ≠ "operations") :
    (l ≠ [] → package_parameter key (.vList l) m =
      .ok { m with
            mapStrList := setKey m.mapStrList key (getStrList m key ++ l.map replaceNone) }) ∧
    (l = [] → package_parameter key (.vList l) m = .ok m) := by
  have h1 : (pyIsList (Value.vList l) && (key != "operations")) = true := by
    simp [pyIsList, hk]
  constructor
  · intro hne
    unfold package_parameter
    rw [if_neg (by simp [pyIsStr]), if_neg (by simp [pyIsBool]),
      if_neg (by simp [pyIsInt]), if_neg (by simp [pyIsFloat]), if_pos h1]
    dsimp only
    rw [if_neg (by simpa using hne)]
  · intro he
    subst he
    unfold package_parameter
    rw [if_neg (by simp [pyIsStr]), if_neg (by simp [pyIsBool]),
      if_neg (by simp [pyIsInt]), if_neg (by simp [pyIsFloat]), if_pos h1]
    rfl

/-- C6 witness: the spec's example input, with a fresh parameter block. -/
theorem claim_C6_generic_list_witness :
    package_parameter "tag" (.vList [.vStr "a", .vNull, .vStr "b"]) {} =
      .ok { mapStrList := [("tag", [Value.vStr "a", Value.vStr "", Value.vStr "b"])] } :=
  (claim_C6_generic_list "tag" [.vStr "a", .vNull, .vStr "b"] {} (by decide)).1 (by simp)

/-- C7 (amended): within generic parameter dispatch the only failure is the
unsupported-value error, raised exactly when the value matches none of the
classification rules (it is a map, or a list under the key
`"operations"`), and it identifies the offending key.  (As literally
stated the claim is false: the whole encoder has further reachable
failure modes — see the counterexample, and the KeyError established for
C3 — so the unsupported-value error is not the only error kind.) -/
theorem claim_C7_unsupported_iff (key : String) (v : Value) (m : OperationParameter) :
    (package_parameter key v m = .error (.unsupported key) ↔
      ((∃ mm, v = .vMap mm) ∨ (∃ l, v = .vList l ∧ key = "operations"))) ∧
    (∀ e, package_parameter key v m = .error e → e = .unsupported key) := by
  unfold package_parameter
  cases v with
  | vStr s => simp [pyIsStr]
  | vBool b => simp [pyIsStr, pyIsBool]
  | vInt n => simp [pyIsStr, pyIsBool, pyIsInt]
  | vFloat q => simp [pyIsStr, pyIsBool, pyIsInt, pyIsFloat]
  | vNull => simp [pyIsStr, pyIsBool, pyIsInt, pyIsFloat, pyIsList, pyIsNone]
  | vMap mm => simp [pyIsStr, pyIsBool, pyIsInt, pyIsFloat, pyIsList, pyIsNone]
  | vList l =>
    by_cases hk : key = "operations"
    · subst hk
      simp [pyIsStr, pyIsBool, pyIsInt, pyIsFloat, pyIsList, pyIsNone]
    · rw [if_neg (by simp [pyIsStr]), if_neg (by simp [pyIsBool]),
        if_neg (by simp [pyIsInt]), if_neg (by simp [pyIsFloat]),
        if_pos (by simp [pyIsList, hk])]
      dsimp only
      constructor
      · constructor
        · intro h
          split at h <;> exact Except.noConfusion h
        · rintro (⟨mm, hmm⟩ | ⟨l2, hl2, hk2⟩)
          · exact Value.noConfusion hmm
          · exact absurd hk2 hk
      · intro e he
        split at he <;> exact Except.noConfusion he

/-- C7 witness: the spec's failing example — a nested map under the
non-structural key `"cfg"` — raises the unsupported-value error naming
that key. -/
theorem claim_C7_unsupported_iff_witness :
    package_parameter "cfg" (.vMap [("x", Value.vInt 1)]) {} =
      .error (.unsupported "cfg") :=
  (claim_C7_unsupported_iff "cfg" (.vMap [("x", Value.vInt 1)]) {}).1.mpr
    (Or.inl ⟨[("x", Value.vInt 1)], rfl⟩)

/-- C7 counterexample: a truthy non-map value under `"sampler"` makes the
encoder fail with an AttributeError (from calling `.items()` on a
non-dict), which is not the unsupported-value error for any key — so the
unsupported-value error is not the encoder's only reachable failure. -/
theorem claim_C7_counterexample :
    package_current_dataset [("sampler", Value.vInt 3)] {} = .error .attrError ∧
    (∀ k, PackError.attrError = PackError.unsupported k → False) :=
  ⟨rfl, fun _ h => PackError.noConfusion h⟩

/-- C3 (amended): a successful walk of a `"children"` list builds exactly
one child node per truthy element — falsy elements (null, empty dicts) are
skipped, so not every list element yields a child; and for a nested child
dict, a missing `"children"` key is not equivalent to a falsy one: it
raises KeyError.  (As literally stated the claim is false on both counts —
see the counterexample.) -/
theorem claim_C3_children_per_element :
    (∀ l ns ps, packChildren l = .ok (ns, ps) →
      ns.length = (l.filter (fun c => truthy c)).length) ∧
    (∀ items, getKey items "children" = none →
      packChild (.vMap items) = .error (.keyError "children")) := by
  constructor
  · intro l
    induction l with
    | nil =>
      intro ns ps h
      rw [packChildren_nil] at h
      cases h
      rfl
    | cons c cs ih =>
      intro ns ps h
      rw [packChildren_cons] at h
      by_cases ht : truthy c = true
      · rw [if_pos ht] at h
        cases hc : packChild c with
        | error e =>
          rw [hc] at h
          simp only [error_bind] at h
          exact Except.noConfusion h
        | ok rc =>
          rw [hc] at h
          simp only [ok_bind] at h
          cases hcs : packChildren cs with
          | error e =>
            rw [hcs] at h
            simp only [error_bind] at h
            exact Except.noConfusion h
          | ok rcs =>
            rw [hcs] at h
            simp only [ok_bind, Except.ok.injEq, Prod.mk.injEq] at h
            have h2 := ih rcs.1 rcs.2 (by rw [hcs])
            rw [← h.1]
            simp [List.filter_cons, ht, h2]
      · rw [if_neg ht] at h
        cases hcs : packChildren cs with
        | error e =>
          rw [hcs] at h
          simp only [error_bind] at h
          exact Except.noConfusion h
        | ok rcs =>
          rw [hcs] at h
          simp only [ok_bind, Except.ok.injEq, Prod.mk.injEq] at h
          have h2 := ih rcs.1 rcs.2 (by rw [hcs])
          rw [← h.1]
          simp only [Bool.not_eq_true] at ht
          simp [List.filter_cons, ht, h2]
  · intro items h
    exact packChild_vMap_none items h

/-- C3 witness: a two-element children list with one truthy dict (whose
own `"children"` entry is empty) and one null element builds exactly one
child; a nested dict without a `"children"` key errors. -/
theorem claim_C3_children_per_element_witness :
    ([DGraph.mk {} []] : List DGraph).length =
      ([Value.vMap [("children", Value.vList [])], Value.vNull].filter
        (fun c => truthy c)).length ∧
    packChild (.vMap [("x", Value.vInt 1)]) = .error (.keyError "children") :=
  ⟨claim_C3_children_per_element.1
      [Value.vMap [("children", Value.vList [])], Value.vNull]
      [DGraph.mk {} []] [Value.vMap [], Value.vNull]
      (by rw [packChildren_cons,
            packChild_vMap_falsy [("children", Value.vList [])] (Value.vList []) rfl rfl,
            packChildren_cons, packChildren_nil]
          rfl),
   claim_C3_children_per_element.2 [("x", Value.vInt 1)] rfl⟩

/-- C3 counterexample: the root's children list holds exactly one truthy
element, a dict without a `"children"` key; instead of one child node (or
of treating the missing key like a falsy value), the encoder raises
KeyError. -/
theorem claim_C3_counterexample :
    package_dataset_graph [("children", Value.vList [Value.vMap [("op", Value.vStr "x")]])] =
      .error (.keyError "children") := by
  rw [package_dataset_graph_list
      [("children", Value.vList [Value.vMap [("op", Value.vStr "x")]])]
      [Value.vMap [("op", Value.vStr "x")]] rfl (by simp),
    packChildrenValue_list, packChildren_cons,
    packChild_vMap_none [("op", Value.vStr "x")] rfl]
  rfl

/-- C8 (amended): the encoder does not mutate the caller's dataset — the
walk operates on a freshly deserialized copy of the serialized pipeline —
but the recursive child walk does mutate the child maps it processes:
`child.pop("children")` leaves each walked child map without its
`"children"` entry. -/
theorem claim_C8_child_pop_mutates (items : List (String × Value)) (gl : List Value)
    (r : DGraph × Value) (h1 : getKey items "children" = some (.vList gl))
    (h2 : packChild (.vMap items) = .ok r) :
    r.2 = .vMap (eraseKey items "children") ∧
    hasKey (eraseKey items "children") "children" = false := by
  refine ⟨?_, hasKey_eraseKey items "children"⟩
  by_cases hgl : gl = []
  · subst hgl
    rw [packChild_vMap_falsy items (Value.vList []) h1 rfl] at h2
    cases hd : package_current_dataset (eraseKey items "children") {} with
    | error e =>
      rw [hd] at h2
      simp only [error_bind] at h2
      exact Except.noConfusion h2
    | ok d =>
      rw [hd] at h2
      simp only [ok_bind, Except.ok.injEq] at h2
      rw [← h2]
  · rw [packChild_vMap_list items gl h1 hgl] at h2
    cases hc : packChildren gl with
    | error e =>
      rw [hc] at h2
      simp only [error_bind] at h2
      exact Except.noConfusion h2
    | ok rs =>
      rw [hc] at h2
      simp only [ok_bind] at h2
      cases hd : package_current_dataset (eraseKey items "children") {} with
      | error e =>
        rw [hd] at h2
        simp only [error_bind] at h2
        exact Except.noConfusion h2
      | ok d =>
        rw [hd] at h2
        simp only [ok_bind, Except.ok.injEq] at h2
        rw [← h2]

/-- C8 witness: walking the child map that carries an (empty) `"children"`
entry and the key `"op"` returns the child's post-state without the
`"children"` entry. -/
theorem claim_C8_child_pop_mutates_witness :
    (Value.vMap [("op", Value.vStr "x")]) =
      .vMap (eraseKey [("children", Value.vList []), ("op", Value.vStr "x")] "children") ∧
    hasKey (eraseKey [("children", Value.vList []), ("op", Value.vStr "x")] "children")
      "children" = false :=
  claim_C8_child_pop_mutates [("children", Value.vList []), ("op", Value.vStr "x")] []
    (DGraph.mk { parameter := { mapStr := [("op", "x")] } } [], .vMap [("op", Value.vStr "x")])
    rfl
    (by rw [packChild_vMap_falsy [("children", Value.vList []), ("op", Value.vStr "x")]
          (Value.vList []) rfl rfl]
        rfl)

/-- C8 counterexample: the child walk does mutate the child map it
processes — the post-call state of this child lacks the `"children"`
entry the input carried, so the walk is not free of effects on the maps it
recurses through. -/
theorem claim_C8_counterexample :
    packChild (.vMap [("children", Value.vList []), ("op", Value.vStr "x")]) =
      .ok (DGraph.mk { parameter := { mapStr := [("op", "x")] } } [],
        .vMap [("op", Value.vStr "x")]) ∧
    Value.vMap [("op", Value.vStr "x")] ≠
      Value.vMap [("children", Value.vList []), ("op", Value.vStr "x")] := by
  constructor
  · rw [packChild_vMap_falsy [("children", Value.vList []), ("op", Value.vStr "x")]
      (Value.vList []) rfl rfl]
    rfl
  · intro h
    injection h with h2
    exact List.noConfusion (List.cons.inj h2).2

/-- C9 (amended): every element of a truthy `"operations"` list — not only
the non-null ones — is packaged into one freshly appended operation
sub-message, preserving list order, so when all elements package
successfully the node gains exactly one sub-message per element.  (As
literally stated the claim is false: a null element is not skipped — it
makes the encoding fail, see the counterexample.) -/
theorem claim_C9_operations_appended (l : List Value) (ops : List Operation) (d : NodeData)
    (hl : l ≠ []) (h : packAllOps l = .ok ops) :
    packCurrentItem d ("operations", .vList l) =
      .ok { d with operations := d.operations ++ ops } := by
  unfold packCurrentItem
  rw [if_pos (by simp [truthy, hl])]
  simp only [pyIterate, ok_bind]
  exact packOperationsFold_ok l ops d h

/-- C9 witness: a two-element operations list appends two sub-messages, in
order. -/
theorem claim_C9_operations_appended_witness :
    packCurrentItem {} ("operations",
        .vList [.vMap [("kernel_name", Value.vStr "Resize")], .vMap []]) =
      .ok { operations := [{ operationParam := { mapStr := [("kernel_name", "Resize")] } }, {}] } :=
  claim_C9_operations_appended
    [.vMap [("kernel_name", Value.vStr "Resize")], .vMap []]
    [{ operationParam := { mapStr := [("kernel_name", "Resize")] } }, {}]
    {} (by simp) rfl

/-- C9 counterexample: a null element in a truthy operations list does not
silently produce no sub-node — it aborts the encoding with AttributeError
(Python calls `.items()` on `None`). -/
theorem claim_C9_counterexample :
    package_current_dataset [("operations", Value.vList [Value.vNull])] {} =
      .error .attrError := rfl

/-- C10: within an operation or sampler, a list whose elements are all
booleans or a mix of booleans and integers passes the all-integer test and
is appended to `size` — in contrast to generic parameter dispatch, where
a boolean value is stored in the Boolean map. -/
theorem claim_C10_bool_int_lists_size (key : String) (l : List Value) (msg : Operation)
    (h : ∀ e ∈ l, pyIsBool e = true ∨ (∃ n, e = Value.vInt n)) :
    packEnhancementItem msg (key, .vList l) = .ok { msg with size := msg.size ++ l } ∧
    (∀ (b : Bool) (m2 : OperationParameter), package_parameter key (.vBool b) m2 =
      .ok { m2 with mapBool := setKey m2.mapBool key b }) := by
  constructor
  · have hall : l.all pyIsInt = true := by
      rw [List.all_eq_true]
      intro e he
      rcases h e he with hb | ⟨n, rfl⟩
      · cases e <;> simp_all [pyIsBool, pyIsInt]
      · rfl
    unfold packEnhancementItem
    simp [hall]
  · intro b m2
    rfl

/-- C10 witness: a mixed boolean/integer list lands wholly in `size`. -/
theorem claim_C10_bool_int_lists_size_witness :
    packEnhancementItem {} ("k", .vList [.vBool true, .vInt 2]) =
      .ok { size := [Value.vBool true, Value.vInt 2] } ∧
    (∀ (b : Bool) (m2 : OperationParameter), package_parameter "k" (.vBool b) m2 =
      .ok { m2 with mapBool := setKey m2.mapBool "k" b }) :=
  claim_C10_bool_int_lists_size "k" [.vBool true, .vInt 2] {}
    (by intro e he
        simp only [List.mem_cons, List.not_mem_nil, or_false] at he
        rcases he with rfl | rfl
        · exact Or.inl rfl
        · exact Or.inr ⟨2, rfl⟩)

end DatasetGraphSpec
